import Mathlib

/-!
Verification of the archive filter and transfer engine of the vic
repository against its specification.

The development shallowly embeds the relevant source files:

* `lib/portlayer/storage/nfs/data_source.go` — the export (pack) pipeline:
  `packUsingTarget` (embedded as `packInit`, `packStep`, `packRun`) and
  `findReadTarget`.
* `lib/portlayer/storage/nfs/data_sink.go` — the import (unpack) pipeline:
  `unpackUsingTarget`, `createRegularFile` and `mkdirAll`.

The storage backend (`Target`) is an oracle record of response functions:
each read-only backend call is answered by the oracle, and every mutating
backend call that succeeds is recorded in a `WriteEvent` trace.  The
`FilterSpec` data structure, the resolver `Excluded` and the `Target`
capability interface live in packages whose sources are not part of this
snapshot; they are modelled from the specification where noted.

Go string functions used by the source (`strings.TrimPrefix`,
`filepath.Join`, `filepath.Clean`, `filepath.Split`, `sort.Strings`) are
embedded as executable Lean functions over `String` / `List Char`.
Byte-wise comparisons of Go are modelled as code-point comparisons, which
agree on UTF-8 encoded strings.
-/

/-- Error kinds of the Go `error` values the pipelines distinguish:
`notExist` is `os.IsNotExist`, `exist` is `os.ErrExist`, `permission` is
`os.IsPermission`, `errmsg` models an `fmt.Errorf` value and `other`
stands for any remaining backend error. -/
inductive GoErr where
  | notExist : GoErr
  | exist : GoErr
  | permission : GoErr
  | errmsg : String → GoErr
  | other : Nat → GoErr
deriving DecidableEq

/-- Models `os.IsNotExist` on the modelled error kinds. -/
def GoErr.isNotExist : GoErr → Bool
  | .notExist => true
  | _ => false

/-- Models `os.IsPermission` on the modelled error kinds. -/
def GoErr.isPermission : GoErr → Bool
  | .permission => true
  | _ => false

/-- Tar entry type flags used by the pipelines (`tar.TypeDir`,
`tar.TypeReg`, `tar.TypeSymlink`); `socket` marks the file kind on which
`tar.FileInfoHeader` fails, `other` covers the remaining flags. -/
inductive TarType where
  | dir : TarType
  | reg : TarType
  | symlink : TarType
  | socket : TarType
  | other : TarType
deriving DecidableEq

/-- Models `os.FileMode` as the directory bit plus the permission bits. -/
structure FileMode where
  isDir : Bool
  perm : Nat
deriving DecidableEq

/-- Models `os.FileInfo` as returned by the backend `Lookup`/`ReadDir`:
the base name, the file kind and the size. -/
structure FileInfo where
  name : String
  ftype : TarType
  perm : Nat
  size : Nat
deriving DecidableEq

/-- Models `FileInfo.IsDir()`. -/
def FileInfo.isDir (i : FileInfo) : Bool :=
  i.ftype == TarType.dir

/-- Models `FileInfo.Mode()`. -/
def FileInfo.mode (i : FileInfo) : FileMode :=
  ⟨i.ftype == TarType.dir, i.perm⟩

/-- Result of opening a backend file for read and copying it with
`io.Copy`: the bytes successfully copied, and the copy error observed
after them, if any. -/
structure ReadResult where
  bytes : List Nat
  copyErr : Option GoErr
deriving DecidableEq

/-- Modelled from the spec: the backend capability abstraction `Target`
(§4.4), whose Go definition is outside the source snapshot.  It is an
oracle assigning to every path the response of each backend call:
`lookup` and `readDir` answer metadata queries, `openRead` answers
`Open` together with the outcome of copying the opened file, and
`openFileErr`/`removeErr`/`mkdirErr`/`copyWriteErr` give the error, if
any, of the corresponding mutating call. -/
structure Target where
  lookup : String → Except GoErr FileInfo
  readDir : String → Except GoErr (List FileInfo)
  openRead : String → Except GoErr ReadResult
  openFileErr : String → Option GoErr
  removeErr : String → Option GoErr
  mkdirErr : String → Option GoErr
  copyWriteErr : String → Option GoErr

/-- The filter specification of `lib/archive` (its Go definition is used
by the sources through `spec.Inclusions`, `spec.Exclusions`,
`spec.TargetPath`, `spec.RebasePath` and `spec.StripPath`); the
`Inclusions`/`Exclusions` key sets are carried as lists of paths. -/
structure FilterSpec where
  Inclusions : List String
  Exclusions : List String
  TargetPath : String
  RebasePath : String
  StripPath : String

/-- Splits a character list at every slash; the separators are dropped
and empty fragments are kept, as in Go string splitting. -/
def splitSlash : List Char → List (List Char)
  | [] => [[]]
  | c :: cs =>
    if c = '/' then [] :: splitSlash cs
    else
      match splitSlash cs with
      | s :: ss => (c :: s) :: ss
      | [] => [[c]]

/-- Models `strings.Join` with separator `/` on segment lists. -/
def joinSlash : List (List Char) → List Char
  | [] => []
  | [s] => s
  | s :: rest => s ++ '/' :: joinSlash rest

/-- One step of the segment processing of `filepath.Clean`: empty and
dot segments are dropped, a dot-dot segment pops the last kept segment
(or is dropped at the root of a rooted path, or is kept at the head of a
relative path), and any other segment is kept.  The kept segments are
held in reverse order. -/
def cleanPush (rooted : Bool) (stack : List (List Char)) (seg : List Char) : List (List Char) :=
  if seg = [] ∨ seg = ['.'] then stack
  else if seg = ['.', '.'] then
    match stack with
    | [] => if rooted then [] else [['.', '.']]
    | top :: rest => if top = ['.', '.'] then seg :: stack else rest
  else seg :: stack

/-- Reassembles the cleaned segments of `filepath.Clean`. -/
def cleanAssemble (rooted : Bool) (segs : List (List Char)) : List Char :=
  let stack := segs.foldl (cleanPush rooted) []
  let outSegs := stack.reverse
  if rooted then '/' :: joinSlash outSegs
  else if outSegs = [] then ['.']
  else joinSlash outSegs

/-- Models `filepath.Clean` on character lists. -/
def goCleanL : List Char → List Char
  | [] => ['.']
  | c :: cs => cleanAssemble (c == '/') (splitSlash (c :: cs))

/-- Models `filepath.Clean`. -/
def goClean (s : String) : String :=
  String.mk (goCleanL s.data)

/-- Models the two-argument `filepath.Join`: empty elements are skipped
and the slash-joined result is cleaned. -/
def goJoin (a b : String) : String :=
  if a = "" then (if b = "" then "" else goClean b) else goClean (a ++ "/" ++ b)

/-- Models `strings.TrimPrefix`. -/
def goTrim (s pre : String) : String :=
  if pre.data.isPrefixOf s.data then String.mk (s.data.drop pre.data.length) else s

/-- Models `filepath.Split`: the directory part up to and including the
final slash, and the file part after it. -/
def splitGo (p : String) : String × String :=
  let f := (p.data.reverse.takeWhile (fun c => ¬ c = '/')).reverse
  (String.mk (p.data.take (p.data.length - f.length)), String.mk f)

/-- The non-empty path segments of a path. -/
def pathSegs (p : String) : List (List Char) :=
  (splitSlash p.data).filter (fun s => ¬ s = [])

/-- Modelled from the spec: path-segment-wise nesting, `p` lies at or
beneath `pre` (§4.1 measures prefixes by path segment, not by byte). -/
def isUnder (pre p : String) : Bool :=
  (pathSegs pre).isPrefixOf (pathSegs p)

/-- Modelled from the spec: the segment depth of the longest pattern in
`pats` that is a path-segment prefix of `p`, or `none` (§4.1 steps 2-3). -/
def matchDepth (pats : List String) (p : String) : Option Nat :=
  pats.foldl
    (fun acc q => if isUnder q p then some (max (acc.getD 0) (pathSegs q).length) else acc)
    none

/-- Modelled from the spec: the resolver `Excluded(path, spec)` of
`lib/archive`, whose Go source is outside the snapshot (§4.1): a path
outside the target is excluded; otherwise the longest matching exclusion
and inclusion prefixes are compared and the path is excluded exactly
when an exclusion matches and no inclusion of at least the same segment
depth matches. -/
def Excluded (path : String) (spec : FilterSpec) : Bool :=
  if ¬ isUnder spec.TargetPath path then true
  else
    match matchDepth spec.Exclusions path, matchDepth spec.Inclusions path with
    | none, _ => false
    | some _, none => true
    | some de, some di => decide (di < de)

/-- Code-point lexicographic order on character lists, modelling the
byte-wise string order used by `sort.Strings` (the two agree on UTF-8). -/
def lexLe : List Char → List Char → Bool
  | [], _ => true
  | _ :: _, [] => false
  | a :: as, b :: bs => if a = b then lexLe as bs else decide (a < b)

/-- The string order of `sort.Strings`. -/
def strLe (x y : String) : Bool :=
  lexLe x.data y.data

/-- Insertion into a sorted list under `strLe`. -/
def insertStr (x : String) : List String → List String
  | [] => [x]
  | y :: ys => if strLe x y then x :: y :: ys else y :: insertStr x ys

/-- Models `sort.Strings` as insertion sort under the byte-wise order. -/
def sortStrings : List String → List String
  | [] => []
  | x :: xs => insertStr x (sortStrings xs)

/-- Embeds `findReadTarget` of `data_source.go`: with no inclusions the
literal root `"/"` is returned, otherwise the inclusion paths are sorted
and the first one is taken. -/
def findReadTarget (spec : FilterSpec) : String :=
  if spec.Inclusions.length = 0 then "/"
  else (sortStrings spec.Inclusions).headD "/"

/-- A successful mutating backend call performed by the import pipeline:
a created directory, a removed file, or a created file together with the
bytes copied into it. -/
inductive WriteEvent where
  | mkdir : String → FileMode → WriteEvent
  | remove : String → WriteEvent
  | create : String → List Nat → WriteEvent
deriving DecidableEq

/-- Terminal outcome kinds of the import pipeline: a Go error value, the
nil-pointer dereference of `mkdirAll` (it reads `info.Mode()` from the
failed first lookup when it reaches its creation loop), or the
non-termination of the ancestor-collection loop of `mkdirAll` (its
`currentPath` stops shrinking once `filepath.Split` returns a path that
ends in a slash, so the source loop never exits). -/
inductive SinkErr where
  | err : GoErr → SinkErr
  | nilPanic : SinkErr
  | diverge : SinkErr
deriving DecidableEq

/-- Embeds the ancestor-collection loop of `mkdirAll` (`data_sink.go`
lines 202-226): walk `currentPath` upwards, stopping at `/` or at an
existing directory, prepending each missing component; a lookup failure
other than not-found aborts.  The source advances `currentPath` with
`filepath.Split`; when that makes no progress the source loop runs
forever, returned here as `SinkErr.diverge`. -/
def collectDirs (t : Target) (cur : String) (acc : List String) : Except SinkErr (String × List String) :=
  if cur = "/" then .ok (cur, acc)
  else
    match t.lookup cur with
    | .ok info =>
      if ¬ info.isDir then
        .error (.err (.errmsg "target along mkdirall target path exists as a non directory"))
      else .ok (cur, acc)
    | .error e =>
      if ¬ e.isNotExist then .error (.err e)
      else
        let pd := splitGo cur
        if h : pd.1.length < cur.length then collectDirs t pd.1 (pd.2 :: acc)
        else .error .diverge
termination_by cur.length

/-- Embeds the creation loop of `mkdirAll` (`data_sink.go` lines
229-237): create each collected directory in root-to-leaf order with the
mode of `info`, the result of the function's first lookup.  Whenever this
loop is reached that lookup has failed, so `info` is nil and reading
`info.Mode()` dereferences a nil pointer, modelled as `SinkErr.nilPanic`. -/
def createDirs (t : Target) (infoOpt : Option FileInfo) : String → List String → List WriteEvent × Except SinkErr Unit
  | _, [] => ([], .ok ())
  | base, d :: rest =>
    match infoOpt with
    | none => ([], .error .nilPanic)
    | some info =>
      let cur := goJoin base d
      match t.mkdirErr cur with
      | some e => ([], .error (.err e))
      | none =>
        let r := createDirs t infoOpt cur rest
        (WriteEvent.mkdir cur info.mode :: r.1, r.2)

/-- Embeds `mkdirAll` of `data_sink.go`: reject a non-directory mode;
succeed if the path already exists as a directory and fail with
`os.ErrExist` if it exists otherwise; else collect the missing ancestors
and create them.  In the creation branch the first lookup has failed, so
the `info` value handed to the creation loop is `none` (nil in the
source). -/
def mkdirAll (path : String) (mode : FileMode) (t : Target) : List WriteEvent × Except SinkErr Unit :=
  let pd := splitGo path
  if ¬ mode.isDir then ([], .error (.err (.errmsg "caller supplied non dir based file mode")))
  else
    match t.lookup path with
    | .ok info => if ¬ info.isDir then ([], .error (.err .exist)) else ([], .ok ())
    | .error _ =>
      match collectDirs t pd.1 [pd.2] with
      | .error se => ([], .error se)
      | .ok ba => createDirs t none ba.1 ba.2

/-- Embeds `createRegularFile` of `data_sink.go`: look the path up; if it
exists as a directory fail with a conflict error, and if it exists
otherwise remove it — after a successful removal the error variable is
nil, `os.IsNotExist(nil)` is false, and the source returns nil without
opening or writing the new file.  When the lookup failed with a
non-not-found error that error is returned; with not-found, the file is
opened for write — an open failure returns nil (source lines 165-168) —
and the remaining tar entry bytes are copied into it.  The `flags`
argument is accepted and, as in the source, never used. -/
def createRegularFile (path : String) (flags : Nat) (perm : FileMode) (content : List Nat) (t : Target) : List WriteEvent × Except SinkErr Unit :=
  match t.lookup path with
  | .ok info =>
    if info.isDir then
      ([], .error (.err (.errmsg "Cannot overwrite directory with non directory at path")))
    else
      match t.removeErr path with
      | some e => ([], .error (.err e))
      | none => ([WriteEvent.remove path], .ok ())
  | .error e =>
    if ¬ e.isNotExist then ([], .error (.err e))
    else
      match t.openFileErr path with
      | some _ => ([], .ok ())
      | none =>
        match t.copyWriteErr path with
        | some e2 => ([], .error (.err e2))
        | none => ([WriteEvent.create path content], .ok ())

/-- The value of the `fileWriteFlags` constant is defined outside the
snapshot; it is never used by the modelled `OpenFile` call. -/
def fileWriteFlags : Nat := 0

/-- A tar entry of the incoming stream: name, type flag, permission bits
and the data bytes of its body. -/
structure TarEntry where
  name : String
  typeflag : TarType
  perm : Nat
  content : List Nat
deriving DecidableEq

/-- Models `header.FileInfo().Mode()`: the directory bit is set exactly
for a directory type flag. -/
def TarEntry.mode (e : TarEntry) : FileMode :=
  ⟨e.typeflag == TarType.dir, e.perm⟩

/-- Equality of `Except` results is decidable when both components are. -/
instance instDecEqExcept {α β : Type} [DecidableEq α] [DecidableEq β] : DecidableEq (Except α β) := fun x y =>
  match x, y with
  | .ok a, .ok b =>
    if h : a = b then isTrue (by rw [h]) else isFalse (fun hh => h (Except.ok.inj hh))
  | .error a, .error b =>
    if h : a = b then isTrue (by rw [h]) else isFalse (fun hh => h (Except.error.inj hh))
  | .ok _, .error _ => isFalse (fun hh => Except.noConfusion hh)
  | .error _, .ok _ => isFalse (fun hh => Except.noConfusion hh)

/-- Outcome of an import run: the successful mutating backend calls in
order, the terminal result, and the number of tar entries read from the
stream. -/
structure UnpackResult where
  writes : List WriteEvent
  result : Except SinkErr Unit
  consumed : Nat
deriving DecidableEq

/-- The write path computed for a tar entry by `unpackUsingTarget`
(`data_sink.go` lines 103-105): strip `StripPath` from the entry name and
join the remainder onto the finalized target path. -/
def computeWritePath (finalTargetPath : String) (spec : FilterSpec) (name : String) : String :=
  goJoin finalTargetPath (goTrim name spec.StripPath)

/-- Embeds the per-entry loop of `unpackUsingTarget` (`data_sink.go`
lines 86-133): skip excluded entries; for a directory entry run
`mkdirAll`; a symbolic-link entry is logged and falls through to the
default branch, which treats the entry as a regular file — `mkdirAll`
with the entry's (non-directory) mode, then `createRegularFile`; any
returned error aborts the loop. -/
def unpackLoop (spec : FilterSpec) (t : Target) (finalTargetPath : String) : List TarEntry → UnpackResult
  | [] => ⟨[], .ok (), 0⟩
  | e :: rest =>
    if Excluded e.name spec then
      let r := unpackLoop spec t finalTargetPath rest
      ⟨r.writes, r.result, r.consumed + 1⟩
    else
      let writePath := computeWritePath finalTargetPath spec e.name
      match e.typeflag with
      | TarType.dir =>
        let m := mkdirAll writePath e.mode t
        match m.2 with
        | .error se => ⟨m.1, .error se, 1⟩
        | .ok _ =>
          let r := unpackLoop spec t finalTargetPath rest
          ⟨m.1 ++ r.writes, r.result, r.consumed + 1⟩
      | _ =>
        let m := mkdirAll writePath e.mode t
        match m.2 with
        | .error se => ⟨m.1, .error se, 1⟩
        | .ok _ =>
          let c := createRegularFile writePath fileWriteFlags e.mode e.content t
          match c.2 with
          | .error se => ⟨m.1 ++ c.1, .error se, 1⟩
          | .ok _ =>
            let r := unpackLoop spec t finalTargetPath rest
            ⟨m.1 ++ c.1 ++ r.writes, r.result, r.consumed + 1⟩

/-- Embeds `unpackUsingTarget` of `data_sink.go`: an empty `RebasePath`
fails immediately with the invalid-write-target error, before any entry
is read; then the volume path is looked up and a lookup failure is
returned; otherwise the per-entry loop runs against the finalized target
path `Join(volumePath, RebasePath)`. -/
def unpackUsingTarget (spec : FilterSpec) (stream : List TarEntry) (t : Target) (volumePath : String) : UnpackResult :=
  if spec.RebasePath = "" then ⟨[], .error (.err (.errmsg "Invalid write target specified")), 0⟩
  else
    match t.lookup volumePath with
    | .error e => ⟨[], .error (.err e), 0⟩
    | .ok _ => unpackLoop spec t (goJoin volumePath spec.RebasePath) stream

/-- A tar header assembled by the export pipeline. -/
structure PackHdr where
  name : String
  typeflag : TarType
  size : Nat
deriving DecidableEq

/-- An event observable on the export stream: a written tar header, or a
run of file bytes copied into the tar encoder. -/
inductive PackEvent where
  | header : String → TarType → Nat → PackEvent
  | fileBytes : List Nat → PackEvent
deriving DecidableEq

/-- Models `tar.FileInfoHeader(info, "")`: the header carries the base
name, type flag and size of the file info; sockets are rejected. -/
def fileInfoHeader (i : FileInfo) : Except GoErr PackHdr :=
  match i.ftype with
  | TarType.socket => .error (.errmsg "archive tar sockets not supported")
  | ft => .ok ⟨i.name, ft, i.size⟩

/-- State of the producer loop of `packUsingTarget`: the remaining work
list (`readList`) and the events emitted so far. -/
structure PackState where
  readList : List String
  out : List PackEvent
deriving DecidableEq

/-- Outcome of one iteration of the producer loop: either the loop
continues in a new state, or the producer returns — with the emitted
events and the terminal error carried by the `return` statement (`none`
when the loop left normally and the pipe closes with nil). -/
inductive PackOut where
  | next : PackState → PackOut
  | done : List PackEvent → Option GoErr → PackOut
deriving DecidableEq

/-- Embeds one iteration of the producer loop of `packUsingTarget`
(`data_source.go` lines 89-163).  An empty work list ends the loop.  An
excluded head is dequeued.  A head whose lookup fails — with any error —
is dequeued and the loop continues (lines 101-108).  Otherwise a header
is assembled (a failure returns that error); for a directory the header
name gains a trailing slash and the base names of the children are
appended to the full work list — the source removes the current head in
neither the directory nor the file case; the header is then written, and
for a non-empty regular file the file is opened and copied, where both
an open failure (permission or otherwise) and a copy failure are only
logged and the loop continues. -/
def packStep (t : Target) (spec : FilterSpec) (s : PackState) : PackOut :=
  match s.readList with
  | [] => .done s.out none
  | currentRead :: rest =>
    if Excluded currentRead spec then .next ⟨rest, s.out⟩
    else
      match t.lookup currentRead with
      | .error _ => .next ⟨rest, s.out⟩
      | .ok info =>
        match fileInfoHeader info with
        | .error e => .done s.out (some e)
        | .ok hdr =>
          if hdr.typeflag = TarType.dir then
            match t.readDir currentRead with
            | .error e => .done s.out (some e)
            | .ok children =>
              .next ⟨s.readList ++ children.map (fun c => c.name),
                s.out ++ [PackEvent.header (hdr.name ++ "/") TarType.dir hdr.size]⟩
          else
            let out2 := s.out ++ [PackEvent.header hdr.name hdr.typeflag hdr.size]
            if hdr.typeflag = TarType.reg ∧ hdr.size ≠ 0 then
              match t.openRead currentRead with
              | .error _ => .next ⟨s.readList, out2⟩
              | .ok rr => .next ⟨s.readList, out2 ++ [PackEvent.fileBytes rr.bytes]⟩
            else .next ⟨s.readList, out2⟩

/-- Runs the producer loop for at most `fuel` iterations: `some` with
the emitted events and terminal error when the producer returns within
the bound, `none` when the loop is still running. -/
def packRun (t : Target) (spec : FilterSpec) : Nat → PackState → Option (List PackEvent × Option GoErr)
  | 0, _ => none
  | n + 1, s =>
    match packStep t spec s with
    | .done out e => some (out, e)
    | .next s2 => packRun t spec n s2

/-- Embeds the producer setup of `packUsingTarget` (`data_source.go`
lines 77-86): the read target is resolved with `findReadTarget`, joined
onto the volume directory, looked up once (a failure is only logged) and
becomes the single initial work-list entry. -/
def packInit (dir : String) (spec : FilterSpec) : PackState :=
  ⟨[goJoin dir (findReadTarget spec)], []⟩

/-- The modelled string order is reflexive. -/
theorem lexLe_refl : ∀ (a : List Char), lexLe a a = true
  | [] => rfl
  | c :: cs => by simp [lexLe, lexLe_refl cs]

/-- The modelled string order is total. -/
theorem lexLe_total : ∀ (a b : List Char), lexLe a b = true ∨ lexLe b a = true
  | [], _ => Or.inl rfl
  | _ :: _, [] => Or.inr rfl
  | a :: as, b :: bs => by
    by_cases hab : a = b
    · subst hab
      rcases lexLe_total as bs with h | h
      · exact Or.inl (by simp [lexLe, h])
      · exact Or.inr (by simp [lexLe, h])
    · rcases lt_or_gt_of_ne hab with h | h
      · exact Or.inl (by simp [lexLe, hab, h])
      · exact Or.inr (by simp [lexLe, Ne.symm hab, h])

/-- The modelled string order is transitive. -/
theorem lexLe_trans : ∀ {a b c : List Char},
    lexLe a b = true → lexLe b c = true → lexLe a c = true
  | [], _, _, _, _ => rfl
  | _ :: _, [], _, h1, _ => by simp [lexLe] at h1
  | _ :: _, _ :: _, [], _, h2 => by simp [lexLe] at h2
  | x :: xs, y :: ys, z :: zs, h1, h2 => by
    by_cases hxy : x = y
    · subst hxy
      by_cases hyz : x = z
      · subst hyz
        simp only [lexLe, if_pos rfl] at h1 h2 ⊢
        exact lexLe_trans h1 h2
      · simp only [lexLe, if_pos rfl] at h1
        simpa [lexLe, hyz] using h2
    · by_cases hyz : y = z
      · subst hyz
        simpa [lexLe, hxy] using h1
      · simp only [lexLe, if_neg hxy] at h1
        simp only [lexLe, if_neg hyz] at h2
        have hx : x < y := by simpa using h1
        have hy : y < z := by simpa using h2
        have hxz : x < z := lt_trans hx hy
        simp [lexLe, ne_of_lt hxz, hxz]

/-- Membership is preserved by sorted insertion. -/
theorem mem_insertStr {a x : String} : ∀ {l : List String}, a ∈ insertStr x l ↔ a = x ∨ a ∈ l
  | [] => by simp [insertStr]
  | y :: ys => by
    by_cases h : strLe x y
    · simp [insertStr, h]
    · simp only [insertStr, if_neg h, List.mem_cons, mem_insertStr]
      tauto

/-- Membership is preserved by the modelled `sort.Strings`. -/
theorem mem_sortStrings {a : String} : ∀ {l : List String}, a ∈ sortStrings l ↔ a ∈ l
  | [] => Iff.rfl
  | x :: xs => by
    simp only [sortStrings, mem_insertStr, List.mem_cons, mem_sortStrings]

/-- Sorted insertion produces a non-empty list. -/
theorem insertStr_ne_nil (x : String) : ∀ (l : List String), insertStr x l ≠ []
  | [] => by simp [insertStr]
  | y :: ys => by
    by_cases h : strLe x y
    · simp [insertStr, h]
    · simp [insertStr, h]

/-- The head of a sorted insertion is the smaller of the inserted element
and the previous head. -/
theorem insertStr_headD (x d : String) : ∀ (l : List String),
    (insertStr x l).headD d = match l with
      | [] => x
      | y :: _ => if strLe x y then x else y
  | [] => rfl
  | y :: ys => by
    by_cases h : strLe x y
    · simp [insertStr, h]
    · simp [insertStr, h]

/-- The head of the sorted inclusion list is below every list element. -/
theorem sortStrings_headD_le : ∀ (l : List String), ∀ p ∈ l,
    strLe ((sortStrings l).headD "/") p = true
  | [], p, hp => absurd hp (List.not_mem_nil p)
  | x :: xs, p, hp => by
    rw [sortStrings, insertStr_headD]
    match hxs : sortStrings xs with
    | [] =>
      have hempty : xs = [] := by
        cases xs with
        | nil => rfl
        | cons a as => exact absurd hxs (insertStr_ne_nil a (sortStrings as))
      subst hempty
      simp only [List.mem_singleton] at hp
      subst hp
      exact lexLe_refl _
    | y :: t =>
      have hy : ∀ q ∈ xs, strLe y q = true := by
        intro q hq
        have := sortStrings_headD_le xs q hq
        rw [hxs] at this
        simpa using this
      rcases List.mem_cons.mp hp with hpx | hpxs
      · subst hpx
        by_cases h : strLe p y
        · simpa [h] using lexLe_refl p.data
        · simp only [if_neg h]
          rcases lexLe_total p.data y.data with ht | ht
          · exact absurd ht h
          · exact ht
      · by_cases h : strLe x y
        · simp only [if_pos h]
          exact lexLe_trans h (hy p hpxs)
        · simp only [if_neg h]
          exact hy p hpxs

/-- The head of the sorted inclusion list is one of the inclusions. -/
theorem sortStrings_headD_mem {l : List String} (h : l ≠ []) :
    (sortStrings l).headD "/" ∈ l := by
  match hxs : sortStrings l with
  | [] =>
    cases l with
    | nil => exact absurd rfl h
    | cons a as => exact absurd hxs (insertStr_ne_nil a (sortStrings as))
  | y :: t =>
    have : y ∈ sortStrings l := by rw [hxs]; exact List.mem_cons_self y t
    simpa using mem_sortStrings.mp this

/-- Two strings with the same character data are equal. -/
theorem str_ext {a b : String} (h : a.data = b.data) : a = b :=
  congrArg String.mk h

/-- Slash-splitting never yields the empty fragment list. -/
theorem splitSlash_ne_nil : ∀ (l : List Char), splitSlash l ≠ []
  | [] => by simp [splitSlash]
  | c :: cs => by
    by_cases h : c = '/'
    · simp [splitSlash, h]
    · rw [splitSlash, if_neg h]
      match hcs : splitSlash cs with
      | [] => simp
      | s :: ss => simp

/-- Slash-splitting distributes over a slash-separated concatenation. -/
theorem splitSlash_slash : ∀ (l₁ l₂ : List Char),
    splitSlash (l₁ ++ '/' :: l₂) = splitSlash l₁ ++ splitSlash l₂
  | [], l₂ => by simp [splitSlash]
  | c :: cs, l₂ => by
    by_cases h : c = '/'
    · subst h
      show [] :: splitSlash (cs ++ '/' :: l₂) = ([] :: splitSlash cs) ++ splitSlash l₂
      rw [splitSlash_slash cs l₂]
      rfl
    · rw [List.cons_append, splitSlash, if_neg h, splitSlash_slash cs l₂, splitSlash, if_neg h]
      match hcs : splitSlash cs with
      | [] => exact absurd hcs (splitSlash_ne_nil cs)
      | s :: ss => simp

/-- Pushing the empty segment leaves the cleaning stack unchanged. -/
theorem cleanPush_nil (r : Bool) (st : List (List Char)) : cleanPush r st [] = st := rfl

/-- The cleaning of a segment list ignores an interspersed empty segment. -/
theorem cleanAssemble_append_nil (r : Bool) (u v : List (List Char)) :
    cleanAssemble r (u ++ [] :: v) = cleanAssemble r (u ++ v) := by
  simp only [cleanAssemble, List.foldl_append, List.foldl_cons, cleanPush_nil]

/-- Character-level cleaning collapses a doubled slash. -/
theorem goCleanL_skip_slash : ∀ (d e : List Char),
    goCleanL (d ++ '/' :: '/' :: e) = goCleanL (d ++ '/' :: e)
  | [], e => by
    show goCleanL ('/' :: '/' :: e) = goCleanL ('/' :: e)
    show cleanAssemble ('/' == '/') (splitSlash ('/' :: '/' :: e)) =
      cleanAssemble ('/' == '/') (splitSlash ('/' :: e))
    show cleanAssemble ('/' == '/') ([] :: [] :: splitSlash e) =
      cleanAssemble ('/' == '/') ([] :: splitSlash e)
    exact cleanAssemble_append_nil ('/' == '/') [] ([] :: splitSlash e) ▸
      cleanAssemble_append_nil ('/' == '/') [] (splitSlash e) ▸ rfl
  | c :: d', e => by
    show cleanAssemble (c == '/') (splitSlash ((c :: d') ++ '/' :: '/' :: e)) =
      cleanAssemble (c == '/') (splitSlash ((c :: d') ++ '/' :: e))
    rw [splitSlash_slash (c :: d') ('/' :: e), splitSlash_slash (c :: d') e]
    show cleanAssemble (c == '/') (splitSlash (c :: d') ++ [] :: splitSlash e) =
      cleanAssemble (c == '/') (splitSlash (c :: d') ++ splitSlash e)
    exact cleanAssemble_append_nil (c == '/') (splitSlash (c :: d')) (splitSlash e)

/-- The cleaning step never pushes an empty segment onto the stack. -/
theorem cleanPush_ne_nil (r : Bool) (st : List (List Char)) (seg : List Char)
    (h : ∀ u ∈ st, u ≠ []) : ∀ u ∈ cleanPush r st seg, u ≠ [] := by
  unfold cleanPush
  by_cases h1 : seg = [] ∨ seg = ['.']
  · rw [if_pos h1]
    exact h
  · rw [if_neg h1]
    by_cases h2 : seg = ['.', '.']
    · rw [if_pos h2]
      cases st with
      | nil =>
        cases r with
        | false =>
          intro u hu
          simp only [if_neg Bool.false_ne_true, List.mem_singleton] at hu
          subst hu
          simp
        | true =>
          intro u hu
          simp at hu
      | cons top rest =>
        show ∀ u ∈ (if top = ['.', '.'] then seg :: top :: rest else rest), u ≠ []
        by_cases ht : top = ['.', '.']
        · rw [if_pos ht]
          intro u hu
          rcases List.mem_cons.mp hu with h3 | h3
          · subst h3
            rw [h2]
            simp
          · exact h u h3
        · rw [if_neg ht]
          intro u hu
          exact h u (List.mem_cons_of_mem top hu)
    · rw [if_neg h2]
      intro u hu
      rcases List.mem_cons.mp hu with h3 | h3
      · subst h3
        intro hn
        exact h1 (Or.inl hn)
      · exact h u h3

/-- Every segment kept by the segment-cleaning fold is non-empty. -/
theorem cleanFold_ne_nil (r : Bool) : ∀ (segs st : List (List Char)),
    (∀ u ∈ st, u ≠ []) → ∀ u ∈ List.foldl (cleanPush r) st segs, u ≠ []
  | [], st, h => h
  | s :: ss, st, h => by
    rw [List.foldl_cons]
    exact cleanFold_ne_nil r ss (cleanPush r st s) (cleanPush_ne_nil r st s h)

/-- Slash-joining a non-empty list of non-empty segments is non-empty. -/
theorem joinSlash_ne_nil : ∀ (l : List (List Char)), l ≠ [] → (∀ u ∈ l, u ≠ []) →
    joinSlash l ≠ []
  | [], hne, _ => absurd rfl hne
  | [s], _, h => by simpa [joinSlash] using h s (by simp)
  | s :: s2 :: t, _, _ => by simp [joinSlash]

/-- The modelled `filepath.Clean` never returns the empty string. -/
theorem goCleanL_ne_nil : ∀ (l : List Char), goCleanL l ≠ []
  | [] => by simp [goCleanL]
  | c :: cs => by
    show cleanAssemble (c == '/') (splitSlash (c :: cs)) ≠ []
    simp only [cleanAssemble]
    by_cases h1 : (c == '/') = true
    · rw [if_pos h1]
      simp
    · rw [if_neg h1]
      by_cases h2 : (List.foldl (cleanPush (c == '/')) [] (splitSlash (c :: cs))).reverse = []
      · rw [if_pos h2]
        simp
      · rw [if_neg h2]
        apply joinSlash_ne_nil _ h2
        intro u hu
        exact cleanFold_ne_nil (c == '/') (splitSlash (c :: cs)) [] (by simp) u
          (List.mem_reverse.mp hu)

/-- Joining onto a non-empty path yields a non-empty path. -/
theorem goJoin_ne_empty (a b : String) (ha : a ≠ "") : goJoin a b ≠ "" := by
  unfold goJoin
  rw [if_neg ha]
  intro hc
  exact goCleanL_ne_nil _ (congrArg String.data hc)

/-- A leading slash on the second argument of `filepath.Join` is
redundant when the first argument is non-empty. -/
theorem goJoin_slash_cons (a x : String) (ha : a ≠ "") :
    goJoin a ("/" ++ x) = goJoin a x := by
  unfold goJoin
  rw [if_neg ha, if_neg ha]
  unfold goClean
  apply congrArg
  have h1 : (a ++ "/" ++ ("/" ++ x)).data = a.data ++ '/' :: '/' :: x.data := by
    simp [String.data_append]
  have h2 : (a ++ "/" ++ x).data = a.data ++ '/' :: x.data := by
    simp [String.data_append]
  rw [h1, h2, goCleanL_skip_slash]

/-- Trimming the strip path off an entry name of the form `S/x` leaves
`/x`. -/
theorem goTrim_append (S x : String) : goTrim (S ++ "/" ++ x) S = "/" ++ x := by
  unfold goTrim
  have hd : (S ++ "/" ++ x).data = S.data ++ '/' :: x.data := by
    simp [String.data_append]
  rw [hd]
  have hp : S.data.isPrefixOf (S.data ++ '/' :: x.data) = true := by
    rw [List.isPrefixOf_iff_prefix]
    exact List.prefix_append _ _
  rw [hp]
  simp only [if_true]
  rw [List.drop_left]
  apply str_ext
  simp [String.data_append]

/-- An oracle answer for backend calls that are never exercised. -/
def noErr : String → Option GoErr := fun _ => none

/-- A backend whose root path is a non-empty regular file of one byte. -/
def t1 : Target :=
  { lookup := fun p => if p = "/" then .ok ⟨"/", TarType.reg, 420, 1⟩ else .error .notExist
    readDir := fun _ => .error .notExist
    openRead := fun p => if p = "/" then .ok ⟨[7], none⟩ else .error .notExist
    openFileErr := noErr
    removeErr := noErr
    mkdirErr := noErr
    copyWriteErr := noErr }

/-- The trivial filter: target the root, no inclusions or exclusions. -/
def spec1 : FilterSpec := ⟨[], [], "/", "", ""⟩

/-- One iteration of the producer on backend `t1` with the root at the
head of the work list: the root is processed, its header and bytes are
emitted, and the head is not removed from the work list. -/
theorem packStep_t1 (out : List PackEvent) :
    packStep t1 spec1 ⟨["/"], out⟩ =
      .next ⟨["/"], (out ++ [PackEvent.header "/" TarType.reg 1]) ++ [PackEvent.fileBytes [7]]⟩ :=
  rfl

/-- On backend `t1` the producer loop never leaves a state whose work
list is the singleton root, for any fuel and emitted events. -/
theorem packRun_t1_none : ∀ (n : Nat) (out : List PackEvent),
    packRun t1 spec1 n ⟨["/"], out⟩ = none := by
  intro n
  induction n with
  | zero => intro out; rfl
  | succ k ih =>
    intro out
    show packRun t1 spec1 (k + 1) ⟨["/"], out⟩ = none
    rw [packRun, packStep_t1]
    exact ih _

/-- C1.  The claim states that the export producer always terminates and
closes the write end of the pipe exactly once.  On the backend `t1`,
whose root is a readable one-byte regular file, the producer loop of
`packUsingTarget` never removes the successfully processed head from its
work list (`data_source.go` lines 89-163 dequeue only in the excluded
and lookup-failure branches), so the loop re-processes the same entry
forever: for every fuel bound the run is still going, the producer never
returns, and the pipe is never closed. -/
theorem packUsingTarget_diverges_on_regular_root (fuel : Nat) :
    packRun t1 spec1 fuel (packInit "/" spec1) = none := by
  have h : packInit "/" spec1 = ⟨["/"], []⟩ := rfl
  rw [h]
  exact packRun_t1_none fuel []

/-- A backend with directory `/a` whose sole child is the regular file
`/a/b`; `ReadDir` reports the child under its base name `b`, as
`FileInfo.Name()` does. -/
def t2 : Target :=
  { lookup := fun p =>
      if p = "/a" then .ok ⟨"a", TarType.dir, 493, 0⟩
      else if p = "/a/b" then .ok ⟨"b", TarType.reg, 420, 3⟩
      else .error .notExist
    readDir := fun p => if p = "/a" then .ok [⟨"b", TarType.reg, 420, 3⟩] else .error .notExist
    openRead := fun _ => .error .notExist
    openFileErr := noErr
    removeErr := noErr
    mkdirErr := noErr
    copyWriteErr := noErr }

/-- A filter whose single inclusion is the directory `/a`. -/
def spec2 : FilterSpec := ⟨["/a"], [], "/", "", ""⟩

/-- C2.  The claim states that for an accepted directory every child
path is enqueued and each descendant is later emitted under its full
path.  Processing the directory `/a` on backend `t2` enqueues the base
name `"b"` returned by `ReadDir` (`data_source.go` line 131 appends
`childInfo.Name()`), not the child path `"/a/b"`; the emitted directory
header also carries the base name `"a/"`.  The enqueued `"b"` can never
be looked up as the child, and the head `/a` is still on the work list,
so the descendant `/a/b` is never emitted. -/
theorem pack_enqueues_base_name_not_child_path :
    packStep t2 spec2 (packInit "/" spec2) =
      .next ⟨["/a", "b"], [PackEvent.header "a/" TarType.dir 0]⟩
    ∧ ("b" : String) ≠ "/a/b" := by
  constructor
  · rfl
  · decide

/-- A filter with no inclusions whose target path is not the root. -/
def spec3 : FilterSpec := ⟨[], [], "/data", "", ""⟩

/-- C3 counterexample.  The claim states that with an empty inclusion
set the walk root is the `TargetPath`; `findReadTarget` instead returns
the literal `"/"` (`data_source.go` line 174), which differs from the
target path `/data` of `spec3`. -/
theorem findReadTarget_empty_inclusions_ne_targetPath :
    findReadTarget spec3 ≠ spec3.TargetPath := by
  decide

/-- C3 amended.  `findReadTarget` returns the literal root `"/"` when
the inclusion set is empty, and otherwise a member of the inclusion set
that is smallest in the byte-wise string order of `sort.Strings`. -/
theorem findReadTarget_min_inclusion_or_root (spec : FilterSpec) :
    (spec.Inclusions = [] → findReadTarget spec = "/")
    ∧ (spec.Inclusions ≠ [] →
        findReadTarget spec ∈ spec.Inclusions
        ∧ ∀ p ∈ spec.Inclusions, strLe (findReadTarget spec) p = true) := by
  constructor
  · intro h
    simp [findReadTarget, h]
  · intro h
    have hlen : ¬ spec.Inclusions.length = 0 := by
      simpa [List.length_eq_zero] using h
    rw [findReadTarget, if_neg hlen]
    exact ⟨sortStrings_headD_mem h, sortStrings_headD_le spec.Inclusions⟩

/-- C3 amended, witness: applied to a spec with no inclusions and to a
spec with inclusions `/b` and `/a`. -/
theorem findReadTarget_min_inclusion_or_root_witness :
    findReadTarget ⟨[], [], "/data", "", ""⟩ = "/"
    ∧ (findReadTarget ⟨["/b", "/a"], [], "/", "", ""⟩ ∈ (["/b", "/a"] : List String)
        ∧ ∀ p ∈ (["/b", "/a"] : List String),
            strLe (findReadTarget ⟨["/b", "/a"], [], "/", "", ""⟩) p = true) :=
  ⟨(findReadTarget_min_inclusion_or_root ⟨[], [], "/data", "", ""⟩).1 rfl,
    (findReadTarget_min_inclusion_or_root ⟨["/b", "/a"], [], "/", "", ""⟩).2 (by decide)⟩

/-- A backend on which every metadata lookup fails with an error that is
neither a not-found nor a permission error. -/
def t4 : Target :=
  { lookup := fun _ => .error (.other 7)
    readDir := fun _ => .error .notExist
    openRead := fun _ => .error .notExist
    openFileErr := noErr
    removeErr := noErr
    mkdirErr := noErr
    copyWriteErr := noErr }

/-- C4 counterexample.  The claim states that a metadata lookup failure
other than a not-found race aborts the whole export with that error.  On
backend `t4` the lookup of the walk root fails with the non-not-found
error `other 7`; the producer nevertheless skips the entry and runs to
completion with terminal error nil instead of aborting. -/
theorem pack_completes_despite_other_lookup_error :
    packRun t4 spec1 2 (packInit "/" spec1) = some ([], none) :=
  rfl

/-- C4 amended.  For every work-list entry whose metadata lookup fails —
with a not-found error or with any other error alike — the entry is
dequeued, nothing is emitted for it, and the walk continues; no lookup
failure aborts the export (`data_source.go` lines 101-108 skip on every
lookup error without inspecting its kind). -/
theorem packStep_skips_any_lookup_error (t : Target) (spec : FilterSpec)
    (s : PackState) (head : String) (rest : List String) (e : GoErr)
    (hlist : s.readList = head :: rest)
    (hexcl : Excluded head spec = false)
    (hlk : t.lookup head = .error e) :
    packStep t spec s = .next ⟨rest, s.out⟩ := by
  cases s with
  | mk rl out =>
    simp only at hlist
    subst hlist
    simp [packStep, hexcl, hlk]

/-- C4 amended, witness: the entry `/x`, whose lookup fails with the
non-not-found error `other 7`, is skipped and the walk continues. -/
theorem packStep_skips_any_lookup_error_witness :
    packStep t4 spec1 ⟨["/x"], []⟩ = .next ⟨[], []⟩ :=
  packStep_skips_any_lookup_error t4 spec1 ⟨["/x"], []⟩ "/x" [] (.other 7) rfl (by decide) rfl

/-- A backend with the three-byte regular file `/f` whose open-for-read
fails with an error that is not a permission error. -/
def t5 : Target :=
  { lookup := fun p => if p = "/f" then .ok ⟨"f", TarType.reg, 420, 3⟩ else .error .notExist
    readDir := fun _ => .error .notExist
    openRead := fun _ => .error (.other 5)
    openFileErr := noErr
    removeErr := noErr
    mkdirErr := noErr
    copyWriteErr := noErr }

/-- C5 counterexample.  The claim states that an open error other than
permission-denied aborts the export with that error.  On backend `t5`
the open of `/f` fails with the non-permission error `other 5`, yet the
producer emits the header and continues the loop instead of finishing
with that error. -/
theorem packStep_continues_on_open_error :
    packStep t5 spec1 ⟨["/f"], []⟩ =
      .next ⟨["/f"], [] ++ [PackEvent.header "f" TarType.reg 3]⟩ :=
  rfl

/-- C5 amended.  For a non-empty regular file at the head of the work
list, the header is always emitted and no error of the open-and-copy
closure is fatal: an open failure of any kind (permission or otherwise)
leaves nothing copied and the loop continues, and when the open succeeds
the bytes delivered by the reader are copied and the loop continues even
if the copy ends in an error — the closure only logs, and its returned
error is discarded by the caller (`data_source.go` lines 142-162). -/
theorem packStep_open_copy_errors_nonfatal (t : Target) (spec : FilterSpec)
    (s : PackState) (head : String) (rest : List String) (info : FileInfo)
    (hlist : s.readList = head :: rest)
    (hexcl : Excluded head spec = false)
    (hlk : t.lookup head = .ok info)
    (hreg : info.ftype = TarType.reg)
    (hsz : info.size ≠ 0) :
    (∀ e : GoErr, t.openRead head = .error e →
      packStep t spec s =
        .next ⟨s.readList, s.out ++ [PackEvent.header info.name TarType.reg info.size]⟩)
    ∧ (∀ rr : ReadResult, t.openRead head = .ok rr →
      packStep t spec s =
        .next ⟨s.readList,
          (s.out ++ [PackEvent.header info.name TarType.reg info.size]) ++
            [PackEvent.fileBytes rr.bytes]⟩) := by
  cases s with
  | mk rl out =>
    simp only at hlist
    subst hlist
    constructor
    · intro e hopen
      simp [packStep, hexcl, hlk, fileInfoHeader, hreg, hsz, hopen]
    · intro rr hopen
      simp [packStep, hexcl, hlk, fileInfoHeader, hreg, hsz, hopen]

/-- C5 amended, witness: the regular file `/f` of backend `t5`, whose
open fails with the non-permission error `other 5`, gets its header
emitted while the loop continues. -/
theorem packStep_open_copy_errors_nonfatal_witness :
    packStep t5 spec1 ⟨["/f"], [PackEvent.header "a/" TarType.dir 0]⟩ =
      .next ⟨["/f"],
        [PackEvent.header "a/" TarType.dir 0] ++ [PackEvent.header "f" TarType.reg 3]⟩ :=
  (packStep_open_copy_errors_nonfatal t5 spec1
      ⟨["/f"], [PackEvent.header "a/" TarType.dir 0]⟩ "/f" [] ⟨"f", TarType.reg, 420, 3⟩
      rfl (by decide) rfl rfl (by decide)).1 (.other 5) rfl

/-- A backend whose volume path `/v` is an existing directory. -/
def t6 : Target :=
  { lookup := fun p => if p = "/v" then .ok ⟨"v", TarType.dir, 493, 0⟩ else .error .notExist
    readDir := fun _ => .error .notExist
    openRead := fun _ => .error .notExist
    openFileErr := noErr
    removeErr := noErr
    mkdirErr := noErr
    copyWriteErr := noErr }

/-- A filter with rebase path `/r` for importing onto volume `/v`. -/
def spec6 : FilterSpec := ⟨[], [], "/", "/r", ""⟩

/-- C6 counterexample.  The claim states that a symbolic-link entry is
skipped without writing and never aborts the import.  Importing the
single symlink entry `/l` aborts the whole import with the directory
mode error of `mkdirAll`, because the symlink case of
`unpackUsingTarget` falls through to the regular-file handling. -/
theorem unpack_symlink_aborts_concrete :
    unpackUsingTarget spec6 [⟨"/l", TarType.symlink, 511, []⟩] t6 "/v" =
      ⟨[], .error (.err (.errmsg "caller supplied non dir based file mode")), 1⟩ :=
  rfl

/-- C6 amended.  A non-excluded symbolic-link entry has its event logged
and then falls through to the default regular-file handling
(`data_sink.go` lines 114-132): `mkdirAll` is called with the entry's
mode, which is not a directory mode, so its sanity check fails, nothing
is written to the backend for the entry, and the import aborts with that
error rather than skipping the entry. -/
theorem unpack_symlink_falls_through_and_aborts (spec : FilterSpec) (t : Target)
    (vol : String) (e : TarEntry) (rest : List TarEntry) (i0 : FileInfo)
    (hreb : spec.RebasePath ≠ "")
    (hvol : t.lookup vol = .ok i0)
    (hsym : e.typeflag = TarType.symlink)
    (hexcl : Excluded e.name spec = false) :
    unpackUsingTarget spec (e :: rest) t vol =
      ⟨[], .error (.err (.errmsg "caller supplied non dir based file mode")), 1⟩ := by
  obtain ⟨nm, tf, pm, ct⟩ := e
  simp only at hsym hexcl
  subst hsym
  simp [unpackUsingTarget, hreb, hvol, unpackLoop, hexcl, mkdirAll, TarEntry.mode]

/-- C6 amended, witness: importing the single symlink entry `/link`
onto backend `t6` aborts with the directory mode error and writes
nothing. -/
theorem unpack_symlink_falls_through_and_aborts_witness :
    unpackUsingTarget spec6 [⟨"/link", TarType.symlink, 511, []⟩] t6 "/v" =
      ⟨[], .error (.err (.errmsg "caller supplied non dir based file mode")), 1⟩ :=
  unpack_symlink_falls_through_and_aborts spec6 t6 "/v" ⟨"/link", TarType.symlink, 511, []⟩
    [] ⟨"v", TarType.dir, 493, 0⟩ (by decide) rfl rfl (by decide)

/-- A backend whose volume path `/v` is a directory and which already
holds a regular file at the computed write path `/v/r/f`. -/
def t7 : Target :=
  { lookup := fun p =>
      if p = "/v" then .ok ⟨"v", TarType.dir, 493, 0⟩
      else if p = "/v/r/f" then .ok ⟨"f", TarType.reg, 420, 2⟩
      else .error .notExist
    readDir := fun _ => .error .notExist
    openRead := fun _ => .error .notExist
    openFileErr := noErr
    removeErr := noErr
    mkdirErr := noErr
    copyWriteErr := noErr }

/-- C7.  The claim states that importing a regular-file entry over an
existing non-directory file removes the old file and then creates and
writes the new one.  On backend `t7`, which already holds the regular
file `/v/r/f`, the import of the entry `/f` aborts in the mode sanity
check of `mkdirAll` before `createRegularFile` is ever reached (the pipe
line calls `mkdirAll` on the write path with the entry's non-directory
mode, `data_sink.go` line 122); and `createRegularFile` itself, invoked
directly at that state, removes the existing file and then returns
success without creating or writing anything, because after a
successful `Remove` the error variable is nil and the source returns at
the `!os.IsNotExist(err)` check (`data_sink.go` lines 154-163). -/
theorem unpack_existing_file_aborts_and_createRegularFile_skips_write :
    unpackUsingTarget spec6 [⟨"/f", TarType.reg, 420, [1, 2]⟩] t7 "/v" =
      ⟨[], .error (.err (.errmsg "caller supplied non dir based file mode")), 1⟩
    ∧ createRegularFile "/v/r/f" fileWriteFlags ⟨false, 420⟩ [1, 2] t7 =
      ([WriteEvent.remove "/v/r/f"], .ok ()) :=
  ⟨rfl, rfl⟩

/-- C8.  For every imported, non-excluded tar entry whose name has the
form `S/x` under `StripPath = S`, the write path computed by
`unpackUsingTarget` — the stripped name joined onto
`Join(volumePath, RebasePath)` — equals the write root joined with the
rebase path joined with `x`: strip first, then rebase, then join onto
the root. -/
theorem unpack_write_path_strip_then_rebase (vol : String) (spec : FilterSpec) (S x : String)
    (hS : spec.StripPath = S)
    (hreb : spec.RebasePath ≠ "")
    (hvol : vol ≠ "")
    (hexcl : Excluded (S ++ "/" ++ x) spec = false) :
    computeWritePath (goJoin vol spec.RebasePath) spec (S ++ "/" ++ x) =
      goJoin (goJoin vol spec.RebasePath) x := by
  have h2 : goJoin vol spec.RebasePath ≠ "" := goJoin_ne_empty vol spec.RebasePath hvol
  rw [computeWritePath, hS, goTrim_append, goJoin_slash_cons _ _ h2]

/-- C8 witness: importing the entry `/a/b` with strip path `/a` and
rebase path `/r` onto the root `/v` computes the write path
`Join(Join(/v, /r), b)`. -/
theorem unpack_write_path_strip_then_rebase_witness :
    computeWritePath (goJoin "/v" (FilterSpec.RebasePath ⟨[], [], "/", "/r", "/a"⟩))
        ⟨[], [], "/", "/r", "/a"⟩ ("/a" ++ "/" ++ "b") =
      goJoin (goJoin "/v" (FilterSpec.RebasePath ⟨[], [], "/", "/r", "/a"⟩)) "b" :=
  unpack_write_path_strip_then_rebase "/v" ⟨[], [], "/", "/r", "/a"⟩ "/a" "b"
    rfl (by decide) (by decide) (by decide)

/-- C9.  For every filter whose `RebasePath` is empty, every stream,
every backend and every volume path, the import fails immediately with
the invalid-write-target error: no tar entry is read and nothing is
written to the backend (`data_sink.go` lines 64-70 return before the
first `tr.Next()`). -/
theorem unpack_empty_rebase_fails_before_reading (spec : FilterSpec)
    (stream : List TarEntry) (t : Target) (vol : String)
    (h : spec.RebasePath = "") :
    unpackUsingTarget spec stream t vol =
      ⟨[], .error (.err (.errmsg "Invalid write target specified")), 0⟩ := by
  simp [unpackUsingTarget, h]

/-- C9 witness: an import with empty rebase path over a valid one-entry
archive fails with the invalid-write-target error, reads no entry and
writes nothing. -/
theorem unpack_empty_rebase_fails_before_reading_witness :
    unpackUsingTarget ⟨[], [], "/", "", ""⟩ [⟨"/f", TarType.reg, 420, [1]⟩] t7 "/v" =
      ⟨[], .error (.err (.errmsg "Invalid write target specified")), 0⟩ :=
  unpack_empty_rebase_fails_before_reading ⟨[], [], "/", "", ""⟩
    [⟨"/f", TarType.reg, 420, [1]⟩] t7 "/v" rfl

/-- A backend on which no path exists and every open-for-write fails. -/
def t10 : Target :=
  { lookup := fun _ => .error .notExist
    readDir := fun _ => .error .notExist
    openRead := fun _ => .error .notExist
    openFileErr := fun _ => some (.other 0)
    removeErr := noErr
    mkdirErr := noErr
    copyWriteErr := noErr }

/-- C10.  In `createRegularFile`, for every write path and file mode at
which the destination does not yet exist, a failure of the
open-for-write call makes the function return nil (success) without
writing any bytes (`data_sink.go` lines 165-168 return `nil` on an
`OpenFile` error), so an import can complete successfully while omitting
that file's content. -/
theorem createRegularFile_open_failure_returns_nil (path : String) (flags : Nat)
    (perm : FileMode) (content : List Nat) (t : Target) (e : GoErr)
    (hlk : t.lookup path = .error GoErr.notExist)
    (hopen : t.openFileErr path = some e) :
    createRegularFile path flags perm content t = ([], .ok ()) := by
  simp [createRegularFile, hlk, hopen, GoErr.isNotExist]

/-- C10 witness: on backend `t10`, whose open-for-write fails
everywhere, `createRegularFile` returns success with no write events. -/
theorem createRegularFile_open_failure_returns_nil_witness :
    createRegularFile "/v/r/f" fileWriteFlags ⟨false, 420⟩ [1, 2] t10 = ([], .ok ()) :=
  createRegularFile_open_failure_returns_nil "/v/r/f" fileWriteFlags ⟨false, 420⟩ [1, 2]
    t10 (.other 0) rfl rfl
